import Mathlib

/-!
Shallow embedding of `src/include/liberror/exception.h` (the liberror library).

The header defines:
* `ErrorInfo` — an immutable `(error_code, description)` pair (lines 32-36);
* `Exception` — the polymorphic error object (lines 38-119) with fields
  `error_code_`, `description_`, `context_` and the mutable memoization cache
  `message_`, five constructor shapes (lines 47-65), accessors (lines 72-74),
  the pure virtual `category()` (line 76) and the lazily rendering
  `what()` (lines 78-117);
* `SystemException` — a platform variant: on Windows it feeds the
  `FormatMessageA`-obtained text through a trailing-LF/CR strip
  (lines 141-174), on POSIX it passes `strerror(ec)` through verbatim
  (lines 190-192).

Modelling choices:
* `std::string` is modelled by `String`; `s.empty()` is modelled by the
  decidable test `s = ""`.
* The platform error-code type is a parameter: on Windows `DWORD`
  (unsigned 32-bit, modelled by `Nat`, values taken mod 2 ^ 32), on POSIX
  `int` (modelled by `Int`).  `sizeof(error_code_type)` is the
  parameter `w` (bytes) of the rendering functions.
* `what()` may fail: in C++ any string operation during assembly can throw
  (for example `std::bad_alloc` on reallocation).  Each individual
  `append`/`push_back`/`reserve` has the strong exception guarantee, so a
  throw during assembly leaves exactly the chunks appended by the already
  completed operations in `message_`.  `Exception.what` therefore takes a
  failure oracle `fail : Option (Nat × String)`: `some (j, m)` means the
  string operation following the first `j` successful chunk appends throws
  an exception whose own `what()` text is `m` (with `j = 0` covering a
  throw in `reserve` or in the very first append); `none`, or a `j` past
  the end of the chunk list, means assembly completes.  The caught
  exception is a `std::exception`, so the `catch` at line 110 applies and
  the call returns `m` (line 112).
-/

namespace liberror

/-- The `HEX_MAP` digit table of `Exception::what` (exception.h line 80). -/
def HEX_MAP : List Char :=
  ['0', '1', '2', '3', '4', '5', '6', '7', '8', '9', 'A', 'B', 'C', 'D', 'E', 'F']

/-- Indexing `HEX_MAP[i]`; in `what` the index is always a nibble, hence `< 16`. -/
def hexDigit (i : Nat) : Char := HEX_MAP.getD i '0'

/-- The hex-rendering `while` loop of `Exception::what` (lines 91-96) for an
unsigned code `c` of byte width `w` (`sizeof(error_code_)`): for
`error_code_size = w - 1, ..., 0` it forms
`ch = static_cast<uint8_t>(c >> (error_code_size * 8))` (truncation mod 256)
and emits `HEX_MAP[ch >> 4]` then `HEX_MAP[ch & 0x0F]`. -/
def hexLoop : Nat → Nat → List Char
  | 0, _ => []
  | k + 1, c =>
    let ch := (c >>> (k * 8)) % 256
    hexDigit (ch >>> 4) :: hexDigit (ch &&& 15) :: hexLoop k c

/-- `liberror::ErrorInfo` (lines 32-36): an immutable code/description pair. -/
structure ErrorInfo where
  error_code : Nat
  description : String

/-- State of a `liberror::Exception` object (lines 38-119).  The field
`category` stands for the fixed string returned by the concrete subtype's
`category()` override (line 76): it is a pure function of the subtype, fixed
for the lifetime of the object. -/
structure Exception where
  category : String
  error_code_ : Nat
  description_ : String
  context_ : String
  message_ : String

/-- Constructor `Exception(error_code)` (lines 47-49). -/
def Exception.ofCode (cat : String) (error_code : Nat) : Exception :=
  { category := cat, error_code_ := error_code, description_ := "", context_ := "",
    message_ := "" }

/-- Constructor `Exception(error_code, context)` (lines 51-53). -/
def Exception.ofCodeContext (cat : String) (error_code : Nat) (context : String) : Exception :=
  { category := cat, error_code_ := error_code, description_ := "", context_ := context,
    message_ := "" }

/-- Constructor `Exception(error_code, context, description)` (lines 55-57). -/
def Exception.ofCodeContextDescription (cat : String) (error_code : Nat)
    (context description : String) : Exception :=
  { category := cat, error_code_ := error_code, description_ := description,
    context_ := context, message_ := "" }

/-- Constructor `Exception(const ErrorInfo&)` (lines 59-61). -/
def Exception.ofErrorInfo (cat : String) (info : ErrorInfo) : Exception :=
  { category := cat, error_code_ := info.error_code, description_ := info.description,
    context_ := "", message_ := "" }

/-- Constructor `Exception(const ErrorInfo&, context)` (lines 63-65). -/
def Exception.ofErrorInfoContext (cat : String) (info : ErrorInfo)
    (context : String) : Exception :=
  { category := cat, error_code_ := info.error_code, description_ := info.description,
    context_ := context, message_ := "" }

/-- Accessor `error_code()` (line 72). -/
def Exception.error_code (e : Exception) : Nat := e.error_code_

/-- Accessor `context()` (line 73). -/
def Exception.context (e : Exception) : String := e.context_

/-- Accessor `description()` (line 74). -/
def Exception.description (e : Exception) : String := e.description_

/-- Concatenation of a list of strings, in order. -/
def concatAll : List String → String
  | [] => ""
  | s :: rest => s ++ concatAll rest

/-- The successive pieces appended to `message_` by the assembly in
`Exception::what` (lines 89-108), in order: `category()`, `"[0x"`, one
one-character piece per `push_back` of the hex loop, `"]"`, the context
(only if non-empty, line 100), and for a non-empty description (line 105)
the separating `" "` and the description.  Each listed piece is one string
operation on `message_`, hence one potential C++ failure point. -/
def assembledChunks (w : Nat) (e : Exception) : List String :=
  [e.category, "[0x"] ++ (hexLoop w e.error_code_).map String.singleton ++ ["]"]
    ++ (if e.context_ = "" then [] else [e.context_])
    ++ (if e.description_ = "" then [] else [" ", e.description_])

/-- `Exception::what` (lines 78-117) with code width `w` and failure oracle
`fail` (see the module docstring).  Returns the pair (returned text,
object state after the call).  If `message_` is non-empty it is returned
unchanged (line 82 guard fails, line 116).  Otherwise the chunks are
appended in order; on a throw after `j` completed appends the `catch`
(line 110) returns the caught exception's own message and `message_` keeps
exactly the appended prefix; on completed assembly `message_` holds the
full text and is returned. -/
def Exception.what (e : Exception) (w : Nat) (fail : Option (Nat × String)) :
    String × Exception :=
  if e.message_ = "" then
    let chunks := assembledChunks w e
    match fail with
    | some fj =>
      if fj.1 < chunks.length then
        (fj.2, { e with message_ := concatAll (List.take fj.1 chunks) })
      else
        (concatAll chunks, { e with message_ := concatAll chunks })
    | none => (concatAll chunks, { e with message_ := concatAll chunks })
  else
    (e.message_, e)

/-- A sequence of `what()` calls on one object, one failure oracle per call. -/
def runCalls (w : Nat) : Exception → List (Option (Nat × String)) → Exception
  | e, [] => e
  | e, f :: fs => runCalls w (e.what w f).2 fs

/-! Helper lemmas about string concatenation and the assembled chunks. -/

theorem concatAll_append (l₁ l₂ : List String) :
    concatAll (l₁ ++ l₂) = concatAll l₁ ++ concatAll l₂ := by
  induction l₁ with
  | nil => apply String.ext; simp [concatAll]
  | cons s l ih => apply String.ext; simp [concatAll, ih]

theorem concatAll_map_singleton (l : List Char) :
    concatAll (l.map String.singleton) = String.mk l := by
  induction l with
  | nil => rfl
  | cons c cs ih =>
    apply String.ext
    simp [concatAll, ih, String.singleton]

theorem concatAll_assembledChunks (w : Nat) (e : Exception) :
    concatAll (assembledChunks w e) =
      e.category ++ "[0x" ++ String.mk (hexLoop w e.error_code_) ++ "]" ++ e.context_
        ++ (if e.description_ = "" then "" else " " ++ e.description_) := by
  by_cases hx : e.context_ = "" <;> by_cases hd : e.description_ = "" <;>
    · apply String.ext
      simp [assembledChunks, concatAll, concatAll_append, concatAll_map_singleton, hx, hd]

theorem what_frame (e : Exception) (w : Nat) (f : Option (Nat × String)) :
    (e.what w f).2.category = e.category ∧
    (e.what w f).2.error_code_ = e.error_code_ ∧
    (e.what w f).2.description_ = e.description_ ∧
    (e.what w f).2.context_ = e.context_ := by
  rcases f with _ | ⟨j, m⟩ <;> by_cases h : e.message_ = "" <;>
    simp [Exception.what, h]
  split <;> simp

theorem runCalls_frame (w : Nat) (e : Exception) (fs : List (Option (Nat × String))) :
    (runCalls w e fs).category = e.category ∧
    (runCalls w e fs).error_code_ = e.error_code_ ∧
    (runCalls w e fs).description_ = e.description_ ∧
    (runCalls w e fs).context_ = e.context_ := by
  induction fs generalizing e with
  | nil => exact ⟨rfl, rfl, rfl, rfl⟩
  | cons f fs ih =>
    obtain ⟨h1, h2, h3, h4⟩ := what_frame e w f
    obtain ⟨g1, g2, g3, g4⟩ := ih (e.what w f).2
    exact ⟨g1.trans h1, g2.trans h2, g3.trans h3, g4.trans h4⟩

theorem what_unchanged (e : Exception) (w : Nat) (f : Option (Nat × String))
    (h : ¬e.message_ = "") : e.what w f = (e.message_, e) := by
  simp [Exception.what, h]

theorem assembledChunks_congr (w : Nat) {e e' : Exception}
    (h1 : e'.category = e.category) (h2 : e'.error_code_ = e.error_code_)
    (h3 : e'.description_ = e.description_) (h4 : e'.context_ = e.context_) :
    assembledChunks w e' = assembledChunks w e := by
  simp [assembledChunks, h1, h2, h3, h4]

theorem rendered_ne_empty (w : Nat) (e : Exception) :
    concatAll (assembledChunks w e) ≠ "" := by
  rw [concatAll_assembledChunks]
  intro h
  have h2 := congrArg String.length h
  have h3 : ("[0x" : String).length = 3 := rfl
  simp [String.length_append, h3] at h2

theorem runCalls_message_prefix (w : Nat) (e : Exception)
    (h : ∃ j, e.message_ = concatAll (List.take j (assembledChunks w e)))
    (fs : List (Option (Nat × String))) :
    ∃ j, (runCalls w e fs).message_ =
      concatAll (List.take j (assembledChunks w e)) := by
  induction fs generalizing e with
  | nil => exact h
  | cons f fs ih =>
    obtain ⟨h1, h2, h3, h4⟩ := what_frame e w f
    have hch : assembledChunks w (e.what w f).2 = assembledChunks w e :=
      assembledChunks_congr w h1 h2 h3 h4
    have hpost : ∃ j, (e.what w f).2.message_ =
        concatAll (List.take j (assembledChunks w e)) := by
      by_cases hm : e.message_ = ""
      · rcases f with _ | ⟨j, m⟩
        · exact ⟨(assembledChunks w e).length, by
            simp [Exception.what, hm, List.take_length]⟩
        · by_cases hj : j < (assembledChunks w e).length
          · exact ⟨j, by simp [Exception.what, hm, hj]⟩
          · exact ⟨(assembledChunks w e).length, by
              simp [Exception.what, hm, hj, List.take_length]⟩
      · rw [what_unchanged e w f hm]
        exact h
    have := ih (e.what w f).2 (by rw [hch]; exact hpost)
    rw [hch] at this
    exact this

/-! Claim theorems. -/

/-- Claim C2: for every code `c`, context `x` and description `d`,
`what()` on a freshly constructed object returns exactly
`category() + "[0x" + hex(c) + "]" + x + (d empty ? "" : " " + d)`:
the context segment is absent when `x` is empty, and when `d` is empty no
space or description segment appears. -/
theorem claim_C2 (w : Nat) (cat : String) (c : Nat) (x d : String) :
    ((Exception.ofCodeContextDescription cat c x d).what w none).1 =
      cat ++ "[0x" ++ String.mk (hexLoop w c) ++ "]" ++ x
        ++ (if d = "" then "" else " " ++ d) := by
  have h := concatAll_assembledChunks w (Exception.ofCodeContextDescription cat c x d)
  simp [Exception.what, Exception.ofCodeContextDescription] at h ⊢
  exact h

/-- Claim C7: an object constructed from `ErrorInfo{code, desc}` plus a
context and an object constructed directly from `(code, context, desc)` are
the same object state, and in particular produce identical `what()` output. -/
theorem claim_C7 (w : Nat) (cat : String) (code : Nat) (desc x : String) :
    Exception.ofErrorInfoContext cat ⟨code, desc⟩ x =
        Exception.ofCodeContextDescription cat code x desc ∧
      ((Exception.ofErrorInfoContext cat ⟨code, desc⟩ x).what w none).1 =
        ((Exception.ofCodeContextDescription cat code x desc).what w none).1 :=
  ⟨rfl, rfl⟩

/-- Claim C9: any sequence of `what()` calls, successful or failing, leaves
`error_code()`, `context()`, `description()` and the `category()` string
unchanged: rendering mutates only the cached message field. -/
theorem claim_C9 (w : Nat) (e : Exception) (fs : List (Option (Nat × String))) :
    (runCalls w e fs).error_code = e.error_code ∧
    (runCalls w e fs).context = e.context ∧
    (runCalls w e fs).description = e.description ∧
    (runCalls w e fs).category = e.category := by
  obtain ⟨h1, h2, h3, h4⟩ := runCalls_frame w e fs
  exact ⟨h2, h4, h3, h1⟩

/-- Claim C6: after a successful `what()` call the cache is non-empty, and a
second call on the unmutated object is the identity: it returns the identical
text and the identical state no matter what failure oracle it is given (no
new string assembly is performed: the non-empty cache is returned
immediately). -/
theorem claim_C6 (w : Nat) (e : Exception) (f : Option (Nat × String)) :
    ((e.what w none).2).what w f = e.what w none ∧
      ¬(e.what w none).2.message_ = "" := by
  by_cases h : e.message_ = ""
  · have hne := rendered_ne_empty w e
    simp [Exception.what, h, hne]
  · simp [Exception.what, h]

/-- Claim C3 counterexample: on a fresh object, an assembly failure occurring
after two completed appends leaves `message_ = "WIN32[0x"`, which is neither
empty nor the full rendering `"WIN32[0x00000005]c"`: the claimed
empty-or-fully-rendered invariant does not hold on the code. -/
theorem claim_C3_counterexample :
    ((Exception.ofCodeContextDescription "WIN32" 5 "c" "").what 4
        (some (2, "m"))).2.message_ = "WIN32[0x" ∧
    ¬((Exception.ofCodeContextDescription "WIN32" 5 "c" "").what 4
        (some (2, "m"))).2.message_ = "" ∧
    ¬((Exception.ofCodeContextDescription "WIN32" 5 "c" "").what 4
        (some (2, "m"))).2.message_ =
      concatAll (assembledChunks 4 (Exception.ofCodeContextDescription "WIN32" 5 "c" "")) :=
  ⟨rfl, by decide, by decide⟩

/-- Claim C3 (amended): over every sequence of `what()` calls on a freshly
constructed object, the cached message field is at all times a prefix of the
full rendering — `concatAll` of the first `j` assembly chunks for some `j` —
with the empty cache (`j = 0`) and the complete rendering as the extreme
cases; a failed assembly leaves the prefix it had completed. -/
theorem claim_C3_amended (w : Nat) (cat : String) (c : Nat) (x d : String)
    (fs : List (Option (Nat × String))) :
    ∃ j, (runCalls w (Exception.ofCodeContextDescription cat c x d) fs).message_ =
      concatAll (List.take j
        (assembledChunks w (Exception.ofCodeContextDescription cat c x d))) :=
  runCalls_message_prefix w _ ⟨0, rfl⟩ fs

/-! Decoding the rendered hex digits, used to state what the hex segment is
worth as a number (claim C5). -/

/-- Position of a character in `HEX_MAP` (decoding a rendered digit). -/
def hexVal (c : Char) : Nat := HEX_MAP.indexOf c

/-- Most-significant-digit-first base-16 value of a digit string. -/
def digitsToNat (l : List Char) : Nat :=
  l.foldl (fun acc d => acc * 16 + hexVal d) 0

theorem and_fifteen (x : Nat) : x &&& 15 = x % 16 := by
  have h := Nat.and_pow_two_sub_one_eq_mod x 4
  norm_num at h
  exact h

theorem shiftRight_four (x : Nat) : x >>> 4 = x / 16 := by
  rw [Nat.shiftRight_eq_div_pow]

theorem hexLoop_length (w c : Nat) : (hexLoop w c).length = 2 * w := by
  induction w with
  | zero => rfl
  | succ w ih => simp [hexLoop, ih]; omega

theorem digitsFold_from (l : List Char) (acc : Nat) :
    List.foldl (fun a d => a * 16 + hexVal d) acc l =
      acc * 16 ^ l.length + List.foldl (fun a d => a * 16 + hexVal d) 0 l := by
  induction l generalizing acc with
  | nil => simp
  | cons d l ih =>
    rw [List.foldl_cons, List.foldl_cons, ih, ih (0 * 16 + hexVal d)]
    simp only [List.length_cons, pow_succ]
    ring

theorem hexVal_hexDigit_lt {i : Nat} (h : i < 16) : hexVal (hexDigit i) = i :=
  (show ∀ j : Fin 16, hexVal (hexDigit j.val) = j.val by decide) ⟨i, h⟩

theorem hexDigit_mem_lt {i : Nat} (h : i < 16) : hexDigit i ∈ HEX_MAP :=
  (show ∀ j : Fin 16, hexDigit j.val ∈ HEX_MAP by decide) ⟨i, h⟩

theorem digitsToNat_hexLoop (w c : Nat) :
    digitsToNat (hexLoop w c) = c % 2 ^ (8 * w) := by
  induction w with
  | zero => simp [digitsToNat, hexLoop, Nat.mod_one]
  | succ w ih =>
    have hch : (c >>> (w * 8)) % 256 < 256 := Nat.mod_lt _ (by norm_num)
    have hhi : ((c >>> (w * 8)) % 256) >>> 4 < 16 := by
      rw [shiftRight_four]
      omega
    have hlo : ((c >>> (w * 8)) % 256) &&& 15 < 16 := by
      rw [and_fifteen]
      omega
    have ihf : List.foldl (fun a d => a * 16 + hexVal d) 0 (hexLoop w c) =
        c % 2 ^ (8 * w) := ih
    simp only [hexLoop, digitsToNat, List.foldl_cons]
    rw [digitsFold_from, hexVal_hexDigit_lt hhi, hexVal_hexDigit_lt hlo, ihf,
      hexLoop_length]
    have hnib : (0 * 16 + ((c >>> (w * 8)) % 256) >>> 4) * 16 +
        (((c >>> (w * 8)) % 256) &&& 15) = (c >>> (w * 8)) % 256 := by
      rw [shiftRight_four, and_fifteen]
      omega
    rw [hnib]
    have hpow : (16 : Nat) ^ (2 * w) = 2 ^ (8 * w) := by
      rw [show (16 : Nat) = 2 ^ 4 from rfl, ← Nat.pow_mul]
      congr 1
      omega
    have hmm : c % 2 ^ (8 * (w + 1)) =
        c % 2 ^ (8 * w) + 2 ^ (8 * w) * (c / 2 ^ (8 * w) % 256) := by
      rw [show 8 * (w + 1) = 8 * w + 8 from by omega, Nat.pow_add,
        show ((2 : Nat) ^ 8) = 256 from rfl]
      exact Nat.mod_mul
    rw [hpow, hmm, Nat.shiftRight_eq_div_pow, show w * 8 = 8 * w from by omega]
    ring

/-- Claim C5: for every code `c` and byte width `w` the hex segment has
exactly `2 * w` characters independent of the code's value (zero padding
included: 8 digits for a 32-bit code, 16 for 64-bit), every character is
drawn from `HEX_MAP` (`0123456789ABCDEF`), and reading the digits
most-significant first in base 16 recovers `c % 2 ^ (8 * w)` — i.e. the
loop emits the bytes of `c` most-significant byte first, high nibble before
low nibble. -/
theorem claim_C5 (w c : Nat) :
    (hexLoop w c).length = 2 * w ∧
    (∀ d ∈ hexLoop w c, d ∈ HEX_MAP) ∧
    digitsToNat (hexLoop w c) = c % 2 ^ (8 * w) := by
  refine ⟨hexLoop_length w c, ?_, digitsToNat_hexLoop w c⟩
  induction w with
  | zero => intro d hd; cases hd
  | succ w ih =>
    intro d hd
    have hhi : ((c >>> (w * 8)) % 256) >>> 4 < 16 := by
      have : (c >>> (w * 8)) % 256 < 256 := Nat.mod_lt _ (by norm_num)
      rw [shiftRight_four]
      omega
    have hlo : ((c >>> (w * 8)) % 256) &&& 15 < 16 := by
      have : (c >>> (w * 8)) % 256 < 256 := Nat.mod_lt _ (by norm_num)
      rw [and_fifteen]
      omega
    simp only [hexLoop, List.mem_cons] at hd
    rcases hd with rfl | rfl | hd
    · exact hexDigit_mem_lt hhi
    · exact hexDigit_mem_lt hlo
    · exact ih d hd

/-! The POSIX build: `error_code_type` is `int` (exception.h line 23), a
signed type.  In `what` (line 93), `error_code_ >> (error_code_size * 8)` is
an arithmetic right shift of a signed value — floor division by the power of
two — and `static_cast<uint8_t>` reduces the result modulo 256.  Lean's `/`
and `%` on `Int` are Euclidean (`Int.ediv`/`Int.emod`); for a positive
divisor `Int.ediv` is exactly floor division and `Int.emod` the
nonnegative remainder, so they model the shift and the cast directly. -/

/-- The hex-rendering loop of `what` under the POSIX typing, acting on the
signed code value `v`. -/
def posixHexLoop : Nat → Int → List Char
  | 0, _ => []
  | k + 1, v =>
    let ch := ((v / ((2 : Int) ^ (k * 8))) % 256).toNat
    hexDigit (ch >>> 4) :: hexDigit (ch &&& 15) :: posixHexLoop k v

theorem int_toNat_div (a : Int) (n : Nat) (h : 0 ≤ a) :
    (a / ((n : Nat) : Int)).toNat = a.toNat / n := by
  obtain ⟨m, rfl⟩ := Int.eq_ofNat_of_zero_le h
  rw [← Int.ofNat_ediv, Int.toNat_ofNat, Int.toNat_ofNat]

theorem int_toNat_mod (a : Int) (n : Nat) (h : 0 ≤ a) :
    (a % ((n : Nat) : Int)).toNat = a.toNat % n := by
  obtain ⟨m, rfl⟩ := Int.eq_ofNat_of_zero_le h
  rw [← Int.ofNat_emod, Int.toNat_ofNat, Int.toNat_ofNat]

theorem posix_byte (v : Int) (w k : Nat) (hk : k < w) :
    ((v / ((2 : Int) ^ (k * 8))) % 256).toNat =
      ((v % ((2 : Int) ^ (8 * w))).toNat >>> (k * 8)) % 256 := by
  have hM : (0 : Int) < (2 : Int) ^ (8 * w) := pow_pos (by norm_num) _
  have hS : (0 : Int) < (2 : Int) ^ (k * 8) := pow_pos (by norm_num) _
  have hr0 : 0 ≤ v % (2 : Int) ^ (8 * w) := Int.emod_nonneg v (ne_of_gt hM)
  have hsplit : v = v % (2 : Int) ^ (8 * w) +
      v / (2 : Int) ^ (8 * w) * (2 : Int) ^ (8 * w) := by
    have h := Int.ediv_add_emod v ((2 : Int) ^ (8 * w))
    linear_combination -h
  have hdiv : v / (2 : Int) ^ (k * 8) =
      v % (2 : Int) ^ (8 * w) / (2 : Int) ^ (k * 8) +
        v / (2 : Int) ^ (8 * w) * (2 : Int) ^ (8 * w - k * 8) := by
    conv_lhs => rw [hsplit]
    rw [show v % (2 : Int) ^ (8 * w) +
        v / (2 : Int) ^ (8 * w) * (2 : Int) ^ (8 * w) =
        v % (2 : Int) ^ (8 * w) +
          v / (2 : Int) ^ (8 * w) * (2 : Int) ^ (8 * w - k * 8) *
            (2 : Int) ^ (k * 8) from by
      rw [mul_assoc, ← pow_add]
      congr 3
      omega]
    rw [Int.add_mul_ediv_right _ _ (ne_of_gt hS)]
  have hmod : v / (2 : Int) ^ (k * 8) % 256 =
      v % (2 : Int) ^ (8 * w) / (2 : Int) ^ (k * 8) % 256 := by
    rw [hdiv, show v / (2 : Int) ^ (8 * w) * (2 : Int) ^ (8 * w - k * 8) =
      v / (2 : Int) ^ (8 * w) * (2 : Int) ^ (8 * w - k * 8 - 8) * 256 from by
      rw [mul_assoc, show (256 : Int) = 2 ^ 8 from by norm_num, ← pow_add]
      congr 3
      omega]
    exact Int.add_mul_emod_self
  rw [hmod]
  have hq0 : 0 ≤ v % (2 : Int) ^ (8 * w) / (2 : Int) ^ (k * 8) :=
    Int.ediv_nonneg hr0 (le_of_lt hS)
  have hcast2 : ((2 : Int) ^ (k * 8)) = (((2 ^ (k * 8) : Nat) : Int)) := by
    push_cast
    ring
  have h1 : (v % (2 : Int) ^ (8 * w) / (2 : Int) ^ (k * 8) % 256).toNat =
      (v % (2 : Int) ^ (8 * w) / (2 : Int) ^ (k * 8)).toNat % 256 := by
    have := int_toNat_mod (v % (2 : Int) ^ (8 * w) / (2 : Int) ^ (k * 8)) 256 hq0
    norm_num at this
    exact this
  have h2 : (v % (2 : Int) ^ (8 * w) / (2 : Int) ^ (k * 8)).toNat =
      (v % (2 : Int) ^ (8 * w)).toNat / 2 ^ (k * 8) := by
    rw [hcast2]
    exact int_toNat_div _ _ hr0
  rw [h1, h2, Nat.shiftRight_eq_div_pow]

theorem posixHexLoop_eq (v : Int) (w : Nat) :
    ∀ j, j ≤ w → posixHexLoop j v =
      hexLoop j ((v % ((2 : Int) ^ (8 * w))).toNat) := by
  intro j
  induction j with
  | zero => intro _; rfl
  | succ j ih =>
    intro hj
    have hb := posix_byte v w j (by omega)
    simp only [posixHexLoop, hexLoop, hb, ih (by omega)]

/-- Claim C10: under the POSIX typing (`error_code_type = int`, signed) the
hex segment rendered for a code `v` — including every negative `v` — is the
hex segment of the unsigned value `v mod 2 ^ (8 * sizeof(int))`, i.e. the
two's-complement byte pattern, not a sign-and-magnitude form; in particular
with 4-byte `int`, code `-1` renders as eight consecutive `F` digits. -/
theorem claim_C10 :
    (∀ (w : Nat) (v : Int), posixHexLoop w v =
        hexLoop w ((v % ((2 : Int) ^ (8 * w))).toNat)) ∧
      posixHexLoop 4 (-1) = ['F', 'F', 'F', 'F', 'F', 'F', 'F', 'F'] := by
  constructor
  · intro w v
    exact posixHexLoop_eq v w w le_rfl
  · decide

/-! `SystemException`.  On Windows (exception.h lines 124-183) the
constructor obtains the description via `FormatMessageA` and normalizes it;
on POSIX (lines 187-195) it passes `strerror(ec)` to the base constructor
verbatim.  The platform facilities are collaborators, modelled as function
parameters: `FormatMessageA` returns `none` when it reports no text for the
code (`length == 0`, line 156), otherwise the non-empty buffer it allocated;
`strerror` always returns some text. -/

/-- One conditional strip step of `GetWin32ErrorDescription`
(`if (length > 0 && buffer[length - 1] == c) buffer[--length] = 0`,
exception.h lines 163-166 and 168-171). -/
def stripTrailing (c : Char) (l : List Char) : List Char :=
  if l ≠ [] ∧ l.getLast? = some c then l.dropLast else l

/-- `SystemException::GetWin32ErrorDescription` (lines 141-174): fetch the
text for `error_code`; on failure return the empty string, otherwise strip
at most one trailing line-feed and then at most one trailing
carriage-return. -/
def GetWin32ErrorDescription (FormatMessageA : Nat → Option (List Char))
    (error_code : Nat) : String :=
  match FormatMessageA error_code with
  | none => ""
  | some buffer => String.mk (stripTrailing '\r' (stripTrailing '\n' buffer))

/-- The Windows `SystemException(error_code, context)` constructor
(lines 177-179), delegating to
`Exception(error_code, context, GetWin32ErrorDescription(error_code))`,
with `category()` returning `"WIN32"` (line 181). -/
def SystemException.win32 (FormatMessageA : Nat → Option (List Char))
    (error_code : Nat) (context : String) : Exception :=
  Exception.ofCodeContextDescription "WIN32" error_code context
    (GetWin32ErrorDescription FormatMessageA error_code)

/-- State of a POSIX-build `liberror::Exception`, whose `error_code_type`
is the signed `int` (line 23); fields as in `Exception`. -/
structure ExceptionPosix where
  category : String
  error_code_ : Int
  description_ : String
  context_ : String
  message_ : String

/-- The POSIX `SystemException(ec, cnt)` constructor (lines 190-192),
delegating to `Exception(ec, cnt, strerror(ec))` — no normalization of the
`strerror` text — with `category()` returning `"POSIX"` (line 194). -/
def SystemException.posix (strerror : Int → String) (ec : Int)
    (cnt : String) : ExceptionPosix :=
  { category := "POSIX", error_code_ := ec, description_ := strerror ec,
    context_ := cnt, message_ := "" }

/-- Claim C4 counterexample: the POSIX `SystemException` stores the platform
text verbatim — a `strerror` result ending in `"\r\n"` is stored with both
characters still present, so the trailing-CRLF normalization is not
performed by the system-error variant on each platform. -/
theorem claim_C4_counterexample :
    (SystemException.posix (fun _ => "E.\r\n") 2 "c").description_ = "E.\r\n" ∧
      ¬(SystemException.posix (fun _ => "E.\r\n") 2 "c").description_ = "E." :=
  ⟨rfl, by decide⟩

/-- Claim C4 (amended): the Windows `SystemException` stores as description
the platform text normalized by stripping at most one trailing line-feed and
then at most one trailing carriage-return — in particular a platform text
ending in `"\r\n"` loses exactly those two characters — while the POSIX
variant stores the `strerror` text verbatim, without this normalization. -/
theorem claim_C4_amended (fm : Nat → Option (List Char)) (ec : Nat)
    (ctx : String) (buffer : List Char) (h : fm ec = some buffer) :
    (SystemException.win32 fm ec ctx).description_ =
        String.mk (stripTrailing '\r' (stripTrailing '\n' buffer)) ∧
      (∀ t : List Char, buffer = t ++ ['\r', '\n'] →
        (SystemException.win32 fm ec ctx).description_ = String.mk t) ∧
      (∀ (se : Int → String) (c : Int) (x : String),
        (SystemException.posix se c x).description_ = se c) := by
  refine ⟨?_, ?_, fun se c x => rfl⟩
  · simp [SystemException.win32, Exception.ofCodeContextDescription,
      GetWin32ErrorDescription, h]
  · intro t ht
    subst ht
    have e1 : stripTrailing '\n' (t ++ ['\r', '\n']) = t ++ ['\r'] := by
      rw [show t ++ ['\r', '\n'] = (t ++ ['\r']) ++ ['\n'] from by simp,
        stripTrailing]
      simp
    have e2 : stripTrailing '\r' (t ++ ['\r']) = t := by
      rw [stripTrailing]
      simp
    simp [SystemException.win32, Exception.ofCodeContextDescription,
      GetWin32ErrorDescription, h, e1, e2]

/-- Witness for the amended claim C4 at a concrete lookup result ending in
a CR-LF pair. -/
theorem claim_C4_witness :
    (fun _ : Nat => some ("E.\r\n".data)) 0 = some ("E.\r\n".data) ∧
      (SystemException.win32 (fun _ => some ("E.\r\n".data)) 0
          "c").description_ = String.mk ("E.".data) :=
  ⟨rfl,
    (claim_C4_amended (fun _ => some ("E.\r\n".data)) 0 "c" ("E.\r\n".data)
        rfl).2.1 ("E.".data) (by decide)⟩

/-- Claim C8: when the platform facility reports no text for the code
(`FormatMessageA` returns length 0, exception.h lines 156-159), the Windows
`SystemException` is still fully constructed and its description is the
empty string. -/
theorem claim_C8 (fm : Nat → Option (List Char)) (ec : Nat) (ctx : String)
    (h : fm ec = none) :
    SystemException.win32 fm ec ctx =
        Exception.ofCodeContextDescription "WIN32" ec ctx "" ∧
      (SystemException.win32 fm ec ctx).description_ = "" := by
  constructor <;>
    simp [SystemException.win32, Exception.ofCodeContextDescription,
      GetWin32ErrorDescription, h]

/-- Witness for claim C8 at a lookup that finds no text. -/
theorem claim_C8_witness :
    (fun _ : Nat => (none : Option (List Char))) 5 = none ∧
      (SystemException.win32 (fun _ => (none : Option (List Char))) 5
          "open").description_ = "" :=
  ⟨rfl, (claim_C8 (fun _ => (none : Option (List Char))) 5 "open" rfl).2⟩

end liberror
